import Mathlib

/-!
Verification development for the audit/compliance subsystem of the
clinicvoice platform (`AuditService` in `client/src/pages/analytics.tsx`):
the audit recorder (`logAction`), retention resolution
(`calculateRetentionDate`), default-policy seeding
(`initializeDefaultPolicies`), the retention sweeper
(`cleanupExpiredLogs`), the trail reader (`getAuditTrail`) and the PII
redaction function (`redactPII`).

The TypeScript service is embedded shallowly:
* the database is a `DbState` record holding the two logical tables
  (audit log rows and retention policy rows) plus boolean fault-injection
  flags, one per storage primitive, so that the `try/catch` behaviour of
  every operation can be examined under storage failure;
* JavaScript exceptions are modelled with `Except String`; a `catch`
  block becomes a `match` on the `Except` value;
* dates are modelled at calendar-day granularity: a wall-clock instant is
  a civil date `(year, month, day)` and stored dates are epoch-day
  numbers (`Int`), computed by the standard civil-from-days algorithm.
  JavaScript `Date` normalization (`setDate`, `setFullYear` with
  out-of-range day-of-month) is captured because `daysFromCivil` is
  defined for arbitrary integer day arguments;
* the detail payload of `JSON.stringify` is modelled by `Payload`:
  either a serializable value (with its serialized text) or a value on
  which `JSON.stringify` throws (circular structure);
* JavaScript runtime values reaching `redactPII` are modelled by `JsVal`,
  with JS truthiness and the `TypeError` raised when `.replace` is
  invoked on a non-string receiver.
-/

/-! ## Calendar-day arithmetic (JS `Date` at day granularity) -/

/-- A civil calendar date, as held by a JS `Date` (time of day ignored:
all operations of the service either preserve it or compare at the
granularity the spec states, calendar days). -/
structure CivilDate where
  year : Int
  month : Int
  day : Int
deriving DecidableEq, Repr

/-- Days since the Unix epoch 1970-01-01 of the civil date `(y, m, d)`
(standard `days_from_civil` algorithm). The formula is linear in `d`, so
it simultaneously captures JS `Date` day-of-month normalization: an
out-of-range `d` rolls over exactly as `new Date(y, m, d)` does. -/
def daysFromCivil (y m d : Int) : Int :=
  let y2 := if m ≤ 2 then y - 1 else y
  let era := (if 0 ≤ y2 then y2 else y2 - 399) / 400
  let yoe := y2 - era * 400
  let mp := (m + 9) % 12
  let doy := (153 * mp + 2) / 5 + d - 1
  let doe := yoe * 365 + yoe / 4 - yoe / 100 + doy
  era * 146097 + doe - 719468

/-- Epoch day of a `CivilDate`. -/
def CivilDate.toDays (t : CivilDate) : Int :=
  daysFromCivil t.year t.month t.day

/-- `daysFromCivil` is linear in the day argument: adding `n` to the
day-of-month (as `retentionDate.setDate(retentionDate.getDate() + n)`
does, with JS normalization) adds exactly `n` days. -/
theorem daysFromCivil_add_days (y m d n : Int) :
    daysFromCivil y m (d + n) = daysFromCivil y m d + n := by
  simp only [daysFromCivil]
  ring

/-! ## Data model -/

/-- One row of the `auditLogs` table (`InsertAuditLog` plus the
database-assigned creation timestamp). `retentionDate` is the computed
expiry as an epoch day, `none` modelling SQL `NULL`. `timestamp` is the
database-assigned creation instant, modelled by a counter. -/
structure AuditLogEntry where
  userId : String
  clinicId : Option String
  action : String
  entityType : String
  entityId : Option String
  details : Option String
  ipAddress : Option String
  userAgent : Option String
  successful : Bool
  errorMessage : Option String
  retentionDate : Option Int
  timestamp : Int
deriving DecidableEq, Repr

/-- One row of the `dataRetentionPolicies` table. -/
structure RetentionPolicy where
  dataType : String
  retentionPeriodDays : Int
  description : String
  legalBasis : String
  isActive : Bool
deriving DecidableEq, Repr

/-- The storage layer: the two logical tables in row order, the
database clock for assigning creation timestamps, and one
fault-injection flag per storage primitive (a `true` flag makes that
primitive throw, modelling an unreachable or failing store). -/
structure DbState where
  auditLogs : List AuditLogEntry
  policies : List RetentionPolicy
  nextTimestamp : Int
  insertLogFails : Bool
  selectPolicyFails : Bool
  insertPolicyFails : Bool
  deleteFails : Bool
  selectTrailFails : Bool
deriving DecidableEq, Repr

/-- A detail payload handed to `logAction`. `JSON.stringify` either
produces a string or throws (circular structure); the payload carries
which of the two happens for this value. -/
inductive Payload where
  | ok (s : String)
  | unserializable
deriving DecidableEq, Repr

/-- `JSON.stringify` on a payload. -/
def jsonStringify : Payload → Except String String
  | .ok s => .ok s
  | .unserializable => .error "TypeError: Converting circular structure to JSON"

/-- The parameter object of `AuditService.logAction`, with the same
optional fields and defaults as the TypeScript signature. -/
structure ActionParams where
  userId : String
  clinicId : Option String := none
  action : String
  entityType : String
  entityId : Option String := none
  details : Option Payload := none
  ipAddress : Option String := none
  userAgent : Option String := none
  successful : Option Bool := none
  errorMessage : Option String := none
deriving Repr

/-- JS `String.prototype.toUpperCase`, as applied to the action name. -/
def jsToUpper (s : String) : String := ⟨s.data.map Char.toUpper⟩

/-! ## Storage primitives (drizzle calls), with fault injection -/

/-- Append one audit row, stamping the database creation timestamp
(`db.insert(auditLogs).values(...)` under the schema's timestamp
default). -/
def appendLog (s : DbState) (e : AuditLogEntry) : DbState :=
  { s with auditLogs := s.auditLogs ++ [e], nextTimestamp := s.nextTimestamp + 1 }

/-- `db.insert(auditLogs).values(entry)`: throws when the store is
failing. -/
def dbInsertLog (s : DbState) (e : AuditLogEntry) : Except String DbState :=
  if s.insertLogFails then .error "insert failed" else .ok (appendLog s e)

/-- The `where` predicate of the policy lookup in
`calculateRetentionDate`: `dataType = entityType AND isActive = true`. -/
def policyMatches (entityType : String) (p : RetentionPolicy) : Bool :=
  p.dataType == entityType && p.isActive

/-- `db.select().from(dataRetentionPolicies).where(dataType ∧ isActive)`:
throws when the store is failing, otherwise returns matching rows in
row order (the TS code destructures the first row). -/
def dbSelectActivePolicies (s : DbState) (entityType : String) :
    Except String (List RetentionPolicy) :=
  if s.selectPolicyFails then .error "select failed"
  else .ok (s.policies.filter (policyMatches entityType))

/-! ## `AuditService.calculateRetentionDate` -/

/-- `AuditService.calculateRetentionDate(entityType)` evaluated at
wall-clock date `now`. Mirrors the TS source: look up the first active
policy row for the entity type; if found, `new Date()` plus
`setDate(getDate() + retentionPeriodDays)`; if none,
`setFullYear(getFullYear() + 7)` (the "7 years" default); on a lookup
exception, `catch` returns `null`. -/
def calculateRetentionDate (s : DbState) (now : CivilDate) (entityType : String) :
    Option Int :=
  match dbSelectActivePolicies s entityType with
  | .error _ => none
  | .ok rows =>
    match rows.head? with
    | some policy => some (daysFromCivil now.year now.month (now.day + policy.retentionPeriodDays))
    | none => some (daysFromCivil (now.year + 7) now.month now.day)

/-! ## `AuditService.logAction` -/

/-- The audit row built inside `logAction`'s `try` block, given the
already-serialized details. -/
def mkEntry (s : DbState) (now : CivilDate) (p : ActionParams) (details : Option String) :
    AuditLogEntry :=
  { userId := p.userId
    clinicId := p.clinicId
    action := jsToUpper p.action
    entityType := p.entityType
    entityId := p.entityId
    details := details
    ipAddress := p.ipAddress
    userAgent := p.userAgent
    successful := p.successful.getD true
    errorMessage := p.errorMessage
    retentionDate := calculateRetentionDate s now p.entityType
    timestamp := s.nextTimestamp }

/-- The `try` block of `AuditService.logAction`: resolve the retention
date (itself non-throwing), serialize the details
(`params.details ? JSON.stringify(params.details) : null` — the
serialization may throw), then insert. An exception in either step
propagates out of the block. -/
def logActionTry (s : DbState) (now : CivilDate) (p : ActionParams) :
    Except String DbState :=
  match p.details with
  | some pl =>
    match jsonStringify pl with
    | .error e => .error e
    | .ok str => dbInsertLog s (mkEntry s now p (some str))
  | none => dbInsertLog s (mkEntry s now p none)

/-- `AuditService.logAction`: the `try` block with its `catch`, which
logs the failure internally and returns normally, leaving the store as
it was. -/
def logAction (s : DbState) (now : CivilDate) (p : ActionParams) : DbState :=
  match logActionTry s now p with
  | .ok s2 => s2
  | .error _ => s

/-! ## `AuditService.initializeDefaultPolicies` -/

/-- Modelled from the spec: the `dataRetentionPolicies` schema lives in
`@shared/schema`, which is not part of this repository slice; per the
spec's data model the seeded policies carry an active flag and are the
policies consulted by retention resolution, so the schema default for
`isActive` is taken to be `true`. The five tuples themselves are the
literal list in `initializeDefaultPolicies`. -/
def defaultPolicies : List RetentionPolicy :=
  [ { dataType := "call_logs", retentionPeriodDays := 2555,
      description := "Patient call recordings and transcripts",
      legalBasis := "HIPAA", isActive := true },
    { dataType := "appointments", retentionPeriodDays := 2555,
      description := "Appointment booking and scheduling records",
      legalBasis := "HIPAA", isActive := true },
    { dataType := "audit_logs", retentionPeriodDays := 2190,
      description := "System access and action audit trails",
      legalBasis := "HIPAA", isActive := true },
    { dataType := "user", retentionPeriodDays := 1095,
      description := "User account and profile information",
      legalBasis := "GDPR", isActive := true },
    { dataType := "consent_records", retentionPeriodDays := 2190,
      description := "Patient consent and withdrawal records",
      legalBasis := "GDPR", isActive := true } ]

/-- One iteration of the seeding loop: select the rows with this data
type (any activity), insert the default only when none exist. The
`Bool` component records that an exception has been raised, which
aborts the remainder of the loop (the surrounding `catch` then swallows
it, keeping the inserts made so far). -/
def seedStep (acc : DbState × Bool) (p : RetentionPolicy) : DbState × Bool :=
  match acc with
  | (s, true) => (s, true)
  | (s, false) =>
    if s.selectPolicyFails then (s, true)
    else if (s.policies.filter (fun q => q.dataType == p.dataType)).isEmpty then
      if s.insertPolicyFails then (s, true)
      else ({ s with policies := s.policies ++ [p] }, false)
    else (s, false)

/-- `AuditService.initializeDefaultPolicies`: the seeding loop under its
`try/catch` (a raised exception stops the loop; the call still returns
normally). -/
def initializeDefaultPolicies (s : DbState) : DbState :=
  (defaultPolicies.foldl seedStep (s, false)).1

/-! ## `AuditService.cleanupExpiredLogs` -/

/-- The sweeper's deletion predicate: `lt(auditLogs.retentionDate, now)`
under SQL comparison semantics — a `NULL` retention date satisfies no
comparison, so such rows are never deleted. -/
def expired (now : CivilDate) (e : AuditLogEntry) : Bool :=
  match e.retentionDate with
  | some r => decide (r < now.toDays)
  | none => false

/-- `db.delete(auditLogs).where(lt(retentionDate, now)).returning(id)`:
throws when the store is failing, otherwise removes exactly the
expired rows and reports how many were removed. -/
def dbDeleteExpired (s : DbState) (now : CivilDate) :
    Except String (DbState × Nat) :=
  if s.deleteFails then .error "delete failed"
  else .ok ({ s with auditLogs := s.auditLogs.filter (fun e => !(expired now e)) },
            (s.auditLogs.filter (expired now)).length)

/-- `JSON.stringify({ deletedCount: n })`. -/
def stringifyDeletedCount (n : Nat) : String :=
  "\x7b\"deletedCount\":" ++ toString n ++ "\x7d"

/-- The descriptor the sweeper's success path hands to `logAction`:
actor `system`, the deleted count as detail, `successful: true`. -/
def cleanupOkParams (n : Nat) : ActionParams :=
  { userId := "system", action := "CLEANUP_EXPIRED_LOGS",
    entityType := "audit_logs",
    details := some (.ok (stringifyDeletedCount n)),
    successful := some true }

/-- The descriptor the sweeper's `catch` hands to `logAction`: actor
`system`, `successful: false` and the error message. -/
def cleanupFailParams (msg : String) : ActionParams :=
  { userId := "system", action := "CLEANUP_EXPIRED_LOGS",
    entityType := "audit_logs",
    successful := some false, errorMessage := some msg }

/-- `AuditService.cleanupExpiredLogs`: delete the expired rows and
self-log the run through `logAction`; on a deletion exception, the
`catch` self-logs a failed run and returns `0`. -/
def cleanupExpiredLogs (s : DbState) (now : CivilDate) : DbState × Nat :=
  match dbDeleteExpired s now with
  | .ok (s2, n) => (logAction s2 now (cleanupOkParams n), n)
  | .error msg => (logAction s now (cleanupFailParams msg), 0)

/-! ## `AuditService.getAuditTrail` -/

/-- The trail query's `where` predicate:
`entityType = et AND entityId = id` (a `NULL` entity id matches no
equality under SQL semantics). -/
def trailMatches (et id : String) (e : AuditLogEntry) : Bool :=
  e.entityType == et && e.entityId == some id

/-- `db.select().from(auditLogs).where(...).orderBy(timestamp).limit(n)`:
throws when the store is failing, otherwise the matching rows sorted
ascending by creation timestamp, truncated to the limit. -/
def dbSelectTrail (s : DbState) (et id : String) (limit : Nat) :
    Except String (List AuditLogEntry) :=
  if s.selectTrailFails then .error "select failed"
  else .ok (((s.auditLogs.filter (trailMatches et id)).mergeSort
      (fun a b => decide (a.timestamp ≤ b.timestamp))).take limit)

/-- `AuditService.getAuditTrail` (default limit 100): the query under
its `try/catch`, which degrades a read failure to an empty list. -/
def getAuditTrail (s : DbState) (et id : String) (limit : Nat := 100) :
    List AuditLogEntry :=
  match dbSelectTrail s et id limit with
  | .ok rows => rows
  | .error _ => []

/-! ## `AuditService.redactPII` -/

/-- A JavaScript runtime value, as far as `redactPII`'s dynamic checks
observe it: `null`, `undefined`, booleans, numbers, strings and plain
objects (an object is its fields in insertion order, keys unique). -/
inductive JsVal where
  | null
  | undef
  | bool (b : Bool)
  | num (n : Int)
  | str (s : String)
  | obj (fields : List (String × JsVal))

/-- JS truthiness of a `JsVal` (`if (redacted[field])`). -/
def truthy : JsVal → Bool
  | .null => false
  | .undef => false
  | .bool b => b
  | .num n => !(n == 0)
  | .str s => !(s == "")
  | .obj _ => true

/-- Update the value stored under key `k` (JS `redacted[field] = v` on
an object whose keys are unique). -/
def setField (l : List (String × JsVal)) (k : String) (v : JsVal) :
    List (String × JsVal) :=
  l.map (fun kv => if kv.1 == k then (kv.1, v) else kv)

/-- JS `value.replace(/(\+\d{1,3})(\d{3})(\d+)/, '$1$2***')`, on the
character list of the string. The engine scans left to right for the
first position where the pattern matches; a match needs a `+` followed
by a digit run of length at least 5 (1–3 digits for group 1, chosen
greedily with backtracking, then 3 digits, then at least one more); the
greedy `\d+` consumes the rest of the digit run, and a non-global
`replace` rewrites only that first match, keeping everything after it. -/
def phoneReplace : List Char → List Char
  | [] => []
  | c :: cs =>
    if c = '+' then
      let run := cs.takeWhile Char.isDigit
      let rest := cs.dropWhile Char.isDigit
      if 5 ≤ run.length then
        c :: (run.take (min 3 (run.length - 4)) ++
          ((run.drop (min 3 (run.length - 4))).take 3 ++ ('*' :: '*' :: '*' :: rest)))
      else c :: phoneReplace cs
    else c :: phoneReplace cs

/-- Whether the phone regex `/(\+\d{1,3})(\d{3})(\d+)/` matches anywhere
in the string: some `+` is followed by at least five digits. -/
def hasPhoneMatch : List Char → Bool
  | [] => false
  | c :: cs => (c == '+' && 5 ≤ (cs.takeWhile Char.isDigit).length) || hasPhoneMatch cs

/-- A character the JS dot (`.`) does not match: the line terminators. -/
def isNewline (c : Char) : Bool :=
  c == '\n' || c == '\r' || c == ' ' || c == ' '

/-- Scan for the first `@` reachable without crossing a line terminator;
returns the suffix starting at that `@` (group 3's start). -/
def scanToAt : List Char → Option (List Char)
  | [] => none
  | c :: cs =>
    if c == '@' then some (c :: cs)
    else if isNewline c then none
    else scanToAt cs

/-- JS `value.replace(/(.)(.*?)(@.*)/, '$1***$3')` on the character
list: the first match keeps its first character, masks the lazy middle
with `***`, and keeps everything from the first subsequent `@` to the
end of that line (the greedy `.*`), plus whatever follows the match. -/
def emailReplace : List Char → List Char
  | [] => []
  | c :: cs =>
    if isNewline c then c :: emailReplace cs
    else
      match scanToAt cs with
      | some atRest =>
          c :: ('*' :: '*' :: '*' ::
            (atRest.takeWhile (fun x => !(isNewline x)) ++
             atRest.dropWhile (fun x => !(isNewline x))))
      | none => c :: emailReplace cs

/-- One iteration of `redactPII`'s field loop. A missing or falsy field
is skipped; `phone` and `email` call `.replace` on the value, which
raises a `TypeError` on a truthy non-string receiver; every other named
field is overwritten with the fixed literal. -/
def redactField (redacted : List (String × JsVal)) (field : String) :
    Except String (List (String × JsVal)) :=
  match redacted.lookup field with
  | none => .ok redacted
  | some v =>
    if truthy v then
      if field == "phone" then
        match v with
        | .str s => .ok (setField redacted field (.str ⟨phoneReplace s.data⟩))
        | _ => .error "TypeError: redacted[field].replace is not a function"
      else if field == "email" then
        match v with
        | .str s => .ok (setField redacted field (.str ⟨emailReplace s.data⟩))
        | _ => .error "TypeError: redacted[field].replace is not a function"
      else .ok (setField redacted field (.str "***REDACTED***"))
    else .ok redacted

/-- The default `fieldsToRedact` argument of `redactPII`. -/
def defaultRedactFields : List String := ["phone", "email", "name", "address"]

/-- The `for (const field of fieldsToRedact)` loop of `redactPII`; a
`TypeError` raised by an iteration aborts the loop and propagates. -/
def redactLoop (fields : List (String × JsVal)) :
    List String → Except String (List (String × JsVal))
  | [] => .ok fields
  | f :: fs =>
    match redactField fields f with
    | .error e => .error e
    | .ok r => redactLoop r fs

/-- `AuditService.redactPII`. `if (!data || typeof data !== 'object')
return data` admits exactly the truthy objects (a `null` is `typeof
'object'` but falsy), so every non-object input is returned unchanged;
an object is shallow-copied and the field loop runs, in which a
`TypeError` from `.replace` on a non-string propagates to the caller
(the function has no `try/catch`). -/
def redactPII (data : JsVal) (fieldsToRedact : List String := defaultRedactFields) :
    Except String JsVal :=
  match data with
  | .obj fields =>
    match redactLoop fields fieldsToRedact with
    | .ok r => .ok (.obj r)
    | .error e => .error e
  | v => .ok v

/-! ## Helper lemmas and sample states -/

/-- A store with both tables empty, the clock at zero, and no storage
fault injected. -/
def noFaultDb : DbState :=
  { auditLogs := [], policies := [], nextTimestamp := 0,
    insertLogFails := false, selectPolicyFails := false,
    insertPolicyFails := false, deleteFails := false,
    selectTrailFails := false }

/-- A sample audit row for the `appointment`/`A1` entity with the given
expiry and creation timestamp. -/
def sampleEntry (rd : Option Int) (ts : Int) : AuditLogEntry :=
  { userId := "u", clinicId := none, action := "A",
    entityType := "appointment", entityId := some "A1", details := none,
    ipAddress := none, userAgent := none, successful := true,
    errorMessage := none, retentionDate := rd, timestamp := ts }

/-- Serialization failure aborts `logAction`'s `try` block before the
insert: the call swallows the exception and the store is untouched. -/
lemma logAction_of_unser (s : DbState) (now : CivilDate) (p : ActionParams)
    (h : p.details = some Payload.unserializable) : logAction s now p = s := by
  simp [logAction, logActionTry, h, jsonStringify]

/-- A failing insert makes the `try` block throw; the `catch` swallows
the exception and the store is untouched. -/
lemma logAction_of_insertFails (s : DbState) (now : CivilDate) (p : ActionParams)
    (h : s.insertLogFails = true) : logAction s now p = s := by
  unfold logAction logActionTry
  match hd : p.details with
  | none => simp [dbInsertLog, h]
  | some (.ok str) => simp [jsonStringify, dbInsertLog, h]
  | some .unserializable => simp [jsonStringify]

/-- With a working insert and no details, `logAction` appends exactly
the entry built in its `try` block. -/
lemma logAction_of_ok_none (s : DbState) (now : CivilDate) (p : ActionParams)
    (h : s.insertLogFails = false) (hd : p.details = none) :
    logAction s now p = appendLog s (mkEntry s now p none) := by
  simp [logAction, logActionTry, hd, dbInsertLog, h]

/-- With a working insert and a serializable details payload,
`logAction` appends exactly the entry built in its `try` block. -/
lemma logAction_of_ok_some (s : DbState) (now : CivilDate) (p : ActionParams)
    (str : String) (h : s.insertLogFails = false) (hd : p.details = some (.ok str)) :
    logAction s now p = appendLog s (mkEntry s now p (some str)) := by
  simp [logAction, logActionTry, hd, jsonStringify, dbInsertLog, h]

/-- Every run of `logAction` either leaves the store unchanged (the
`catch` swallowed a failure) or appends exactly one audit row. -/
lemma logAction_cases (s : DbState) (now : CivilDate) (p : ActionParams) :
    logAction s now p = s ∨ ∃ e : AuditLogEntry, logAction s now p = appendLog s e := by
  match hd : p.details with
  | some .unserializable => exact .inl (logAction_of_unser s now p hd)
  | none =>
    cases h : s.insertLogFails with
    | true => exact .inl (logAction_of_insertFails s now p h)
    | false => exact .inr ⟨_, logAction_of_ok_none s now p h hd⟩
  | some (.ok str) =>
    cases h : s.insertLogFails with
    | true => exact .inl (logAction_of_insertFails s now p h)
    | false => exact .inr ⟨_, logAction_of_ok_some s now p str h hd⟩

/-! ## Claim C1 — the recorder never propagates an exception -/

/-- C1: for every store state (including every combination of injected
storage faults), wall-clock date and action descriptor, `logAction`
returns normally — it yields a store, either unchanged (a failure of
policy lookup recovery, serialization or insert was swallowed) or with
exactly one appended row; in particular it returns normally when the
insert is made to fail and when the payload cannot be serialized. -/
theorem logAction_never_throws (s : DbState) (now : CivilDate) (p : ActionParams) :
    (logAction s now p = s ∨ ∃ e : AuditLogEntry, logAction s now p = appendLog s e)
    ∧ logAction { s with insertLogFails := true } now p = { s with insertLogFails := true }
    ∧ logAction s now { p with details := some Payload.unserializable } = s := by
  refine ⟨logAction_cases s now p, ?_, ?_⟩
  · exact logAction_of_insertFails _ now p rfl
  · exact logAction_of_unser s now _ rfl

/-! ## Claim C2 — retention resolution -/

/-- C2 counterexample: with no matching active policy, the retention
resolved at 2026-01-01 is not 2555 days from that date — the code's
fallback is `setFullYear(getFullYear() + 7)`, i.e. seven calendar
years, which here is 2557 days because the span contains the leap days
of 2028 and 2032. -/
theorem calculateRetentionDate_fallback_counterexample :
    calculateRetentionDate noFaultDb ⟨2026, 1, 1⟩ "call_logs" ≠
      some (daysFromCivil 2026 1 1 + 2555) := by
  decide

/-- C2 (amended): with the policy lookup working, an entity type whose
first matching active policy prescribes `N` days is stamped with expiry
`T + N` calendar days; an entity type with no matching active policy is
stamped with the date seven calendar years after `T` (the
`setFullYear(+7)` fallback), not with `T + 2555` days. -/
theorem calculateRetentionDate_spec (s : DbState) (y m d : Int) (et : String)
    (h : s.selectPolicyFails = false) :
    ((s.policies.filter (policyMatches et)).head? = none →
      calculateRetentionDate s ⟨y, m, d⟩ et = some (daysFromCivil (y + 7) m d))
    ∧ (∀ pol : RetentionPolicy,
        (s.policies.filter (policyMatches et)).head? = some pol →
          calculateRetentionDate s ⟨y, m, d⟩ et =
            some (daysFromCivil y m d + pol.retentionPeriodDays)) := by
  constructor
  · intro hh
    simp [calculateRetentionDate, dbSelectActivePolicies, h, hh]
  · intro pol hh
    simp [calculateRetentionDate, dbSelectActivePolicies, h, hh,
      daysFromCivil_add_days]

/-- A ten-day active `call_logs` policy, for concrete instantiations. -/
def tenDayCallLogsPolicy : RetentionPolicy :=
  { dataType := "call_logs", retentionPeriodDays := 10,
    description := "d", legalBasis := "l", isActive := true }

/-- C2 witness: at 2026-01-01, an empty policy store resolves to the
seven-year fallback, and a 10-day active policy for `call_logs`
resolves to 2026-01-01 plus 10 days. -/
theorem calculateRetentionDate_spec_witness :
    calculateRetentionDate noFaultDb ⟨2026, 1, 1⟩ "x" =
      some (daysFromCivil (2026 + 7) 1 1)
    ∧ calculateRetentionDate
        { noFaultDb with policies := [tenDayCallLogsPolicy] }
        ⟨2026, 1, 1⟩ "call_logs" = some (daysFromCivil 2026 1 1 + 10) := by
  constructor
  · exact (calculateRetentionDate_spec noFaultDb 2026 1 1 "x" rfl).1 (by decide)
  · exact (calculateRetentionDate_spec
      { noFaultDb with policies := [tenDayCallLogsPolicy] }
      2026 1 1 "call_logs" rfl).2 tenDayCallLogsPolicy (by decide)

/-! ## Claim C5 — serialization failure on the write path -/

/-- C5 counterexample: with the store fully available (no fault
injected, `insertLogFails = false`) and a detail payload on which
`JSON.stringify` throws, `logAction` persists nothing at all — the
store stays empty — rather than persisting an entry with a null detail
payload, because the single `try/catch` wraps serialization and insert
together and the `catch` abandons the whole write. -/
theorem logAction_serialization_counterexample :
    logAction noFaultDb ⟨2026, 1, 1⟩
      { userId := "u", action := "a", entityType := "t",
        details := some Payload.unserializable } = noFaultDb
    ∧ noFaultDb.insertLogFails = false ∧ noFaultDb.auditLogs = [] :=
  ⟨logAction_of_unser _ _ _ rfl, rfl, rfl⟩

/-- C5 (amended): if serialization of the detail payload fails during
`logAction`, the write is abandoned entirely — no entry is persisted,
even though storage is available — and the call still returns normally
with the store unchanged. -/
theorem logAction_serialization_failure_state (s : DbState) (now : CivilDate)
    (p : ActionParams) (h : p.details = some Payload.unserializable) :
    logAction s now p = s :=
  logAction_of_unser s now p h

/-- C5 witness: a concrete unserializable payload against the fault-free
store leaves the store unchanged. -/
theorem logAction_serialization_failure_state_witness :
    logAction noFaultDb ⟨2026, 1, 1⟩
      { userId := "u", action := "UPDATE", entityType := "appointment",
        details := some Payload.unserializable } = noFaultDb :=
  logAction_serialization_failure_state noFaultDb ⟨2026, 1, 1⟩ _ rfl


/-- The store after the sweeper's delete succeeded: only the
non-expired audit rows remain. -/
def sweptDb (s : DbState) (now : CivilDate) : DbState :=
  { s with auditLogs := s.auditLogs.filter (fun e => !(expired now e)) }

/-- The sweeper's action name is already uppercase, so `toUpperCase`
leaves it unchanged. -/
lemma jsToUpper_cleanup :
    jsToUpper "CLEANUP_EXPIRED_LOGS" = "CLEANUP_EXPIRED_LOGS" := by decide

/-! ## Claim C3 — the sweeper deletes exactly the expired rows -/

/-- C3: when the deletion succeeds, `cleanupExpiredLogs` returns the
number of rows whose expiry is non-null and strictly before `now`
(`expired` is false on a null expiry, so such rows always survive), and
afterwards the table holds exactly the surviving rows followed by at
most one extra row — the sweeper's own self-log, the subject of C4. -/
theorem cleanupExpiredLogs_deletes_exactly (s : DbState) (now : CivilDate)
    (h : s.deleteFails = false) :
    (cleanupExpiredLogs s now).2 = (s.auditLogs.filter (expired now)).length
    ∧ ∃ tail : List AuditLogEntry, tail.length ≤ 1 ∧
        (cleanupExpiredLogs s now).1.auditLogs =
          s.auditLogs.filter (fun e => !(expired now e)) ++ tail := by
  have hc : cleanupExpiredLogs s now =
      (logAction (sweptDb s now) now
        (cleanupOkParams (s.auditLogs.filter (expired now)).length),
       (s.auditLogs.filter (expired now)).length) := by
    simp [cleanupExpiredLogs, dbDeleteExpired, h, sweptDb]
  rw [hc]
  refine ⟨rfl, ?_⟩
  rcases logAction_cases (sweptDb s now) now
      (cleanupOkParams (s.auditLogs.filter (expired now)).length) with heq | ⟨e, heq⟩
  · exact ⟨[], by simp, by rw [heq]; simp [sweptDb]⟩
  · exact ⟨[e], by simp, by rw [heq]; simp [appendLog, sweptDb]⟩

/-- C3 witness: of three rows with expiry one day in the past, one day
in the future and null, the sweeper removes exactly the first and
returns count 1 (epoch day of 1970-01-03 is 2; the expiries are 1, 3
and null). -/
theorem cleanupExpiredLogs_deletes_exactly_witness :
    (cleanupExpiredLogs
      { noFaultDb with auditLogs :=
          [sampleEntry (some 1) 0, sampleEntry (some 3) 1, sampleEntry none 2] }
      ⟨1970, 1, 3⟩).2 = 1
    ∧ ∃ tail : List AuditLogEntry, tail.length ≤ 1 ∧
        (cleanupExpiredLogs
          { noFaultDb with auditLogs :=
              [sampleEntry (some 1) 0, sampleEntry (some 3) 1, sampleEntry none 2] }
          ⟨1970, 1, 3⟩).1.auditLogs =
          [sampleEntry (some 3) 1, sampleEntry none 2] ++ tail := by
  obtain ⟨h1, h2⟩ := cleanupExpiredLogs_deletes_exactly
    { noFaultDb with auditLogs :=
        [sampleEntry (some 1) 0, sampleEntry (some 3) 1, sampleEntry none 2] }
    ⟨1970, 1, 3⟩ rfl
  refine ⟨h1.trans (by decide), ?_⟩
  obtain ⟨tail, hlen, heq⟩ := h2
  refine ⟨tail, hlen, heq.trans ?_⟩
  have hf : ({ noFaultDb with auditLogs :=
        [sampleEntry (some 1) 0, sampleEntry (some 3) 1, sampleEntry none 2] } :
      DbState).auditLogs.filter (fun e => !(expired ⟨1970, 1, 3⟩ e)) =
      [sampleEntry (some 3) 1, sampleEntry none 2] := by decide
  rw [hf]

/-! ## Claim C4 — the sweeper self-logs every run -/

/-- C4: with the audit insert available, every `cleanupExpiredLogs` run
— including one that deleted zero rows — appends exactly one new audit
row with action `CLEANUP_EXPIRED_LOGS` and actor `system`: on a
successful deletion it carries `successful = true` and the deleted
count as serialized detail; on a deletion failure it carries
`successful = false` and the error message, and the call returns 0
instead of propagating the exception. -/
theorem cleanupExpiredLogs_self_logs (s : DbState) (now : CivilDate)
    (h : s.insertLogFails = false) :
    ∃ e : AuditLogEntry,
      (cleanupExpiredLogs s now).1.auditLogs =
        (if s.deleteFails then s.auditLogs
         else s.auditLogs.filter (fun x => !(expired now x))) ++ [e]
      ∧ e.action = "CLEANUP_EXPIRED_LOGS"
      ∧ e.userId = "system"
      ∧ (s.deleteFails = false → e.successful = true ∧
          e.details = some (stringifyDeletedCount
            (s.auditLogs.filter (expired now)).length))
      ∧ (s.deleteFails = true → e.successful = false ∧
          e.errorMessage = some "delete failed" ∧
          (cleanupExpiredLogs s now).2 = 0) := by
  cases hd : s.deleteFails with
  | true =>
    have hc : cleanupExpiredLogs s now =
        (logAction s now (cleanupFailParams "delete failed"), 0) := by
      simp [cleanupExpiredLogs, dbDeleteExpired, hd]
    have hl := logAction_of_ok_none s now (cleanupFailParams "delete failed") h rfl
    refine ⟨mkEntry s now (cleanupFailParams "delete failed") none, ?_, ?_, rfl, ?_, ?_⟩
    · rw [hc]
      simp only [hl]
      simp [appendLog]
    · exact jsToUpper_cleanup
    · intro hff
      exact absurd hff (by decide)
    · intro _
      exact ⟨rfl, rfl, by rw [hc]⟩
  | false =>
    have hc : cleanupExpiredLogs s now =
        (logAction (sweptDb s now) now
          (cleanupOkParams (s.auditLogs.filter (expired now)).length),
         (s.auditLogs.filter (expired now)).length) := by
      simp [cleanupExpiredLogs, dbDeleteExpired, hd, sweptDb]
    have hl := logAction_of_ok_some (sweptDb s now) now
      (cleanupOkParams (s.auditLogs.filter (expired now)).length)
      (stringifyDeletedCount (s.auditLogs.filter (expired now)).length) h rfl
    refine ⟨mkEntry (sweptDb s now) now
      (cleanupOkParams (s.auditLogs.filter (expired now)).length)
      (some (stringifyDeletedCount (s.auditLogs.filter (expired now)).length)),
      ?_, ?_, rfl, ?_, ?_⟩
    · rw [hc]
      simp only [hl]
      simp [appendLog, sweptDb]
    · exact jsToUpper_cleanup
    · intro _
      exact ⟨rfl, rfl⟩
    · intro htt
      exact absurd htt (by decide)

/-- C4 witness: on the empty fault-free store (a run that deletes zero
rows) the sweeper leaves behind exactly one new `CLEANUP_EXPIRED_LOGS`
row authored by `system`. -/
theorem cleanupExpiredLogs_self_logs_witness :
    ∃ e : AuditLogEntry,
      (cleanupExpiredLogs noFaultDb ⟨1970, 1, 3⟩).1.auditLogs =
        (if noFaultDb.deleteFails then noFaultDb.auditLogs
         else noFaultDb.auditLogs.filter (fun x => !(expired ⟨1970, 1, 3⟩ x))) ++ [e]
      ∧ e.action = "CLEANUP_EXPIRED_LOGS"
      ∧ e.userId = "system"
      ∧ (noFaultDb.deleteFails = false → e.successful = true ∧
          e.details = some (stringifyDeletedCount
            (noFaultDb.auditLogs.filter (expired ⟨1970, 1, 3⟩)).length))
      ∧ (noFaultDb.deleteFails = true → e.successful = false ∧
          e.errorMessage = some "delete failed" ∧
          (cleanupExpiredLogs noFaultDb ⟨1970, 1, 3⟩).2 = 0) :=
  cleanupExpiredLogs_self_logs noFaultDb ⟨1970, 1, 3⟩ rfl

/-! ## Claim C7 — the trail reader -/

/-- C7: with the read working, `getAuditTrail` returns only rows of the
store matching the entity type and entity id exactly, in ascending
creation-timestamp order, truncated to the limit (its length is the
minimum of the limit and the number of matching rows); and with the
read failing it returns the empty list instead of raising. -/
theorem getAuditTrail_spec (s : DbState) (et id : String) (limit : Nat)
    (h : s.selectTrailFails = false) :
    (∀ e ∈ getAuditTrail s et id limit,
        (e.entityType = et ∧ e.entityId = some id) ∧ e ∈ s.auditLogs)
    ∧ List.Sorted (fun a b : AuditLogEntry => a.timestamp ≤ b.timestamp)
        (getAuditTrail s et id limit)
    ∧ (getAuditTrail s et id limit).length =
        min limit (s.auditLogs.filter (trailMatches et id)).length
    ∧ getAuditTrail { s with selectTrailFails := true } et id limit = [] := by
  have hg : getAuditTrail s et id limit =
      ((s.auditLogs.filter (trailMatches et id)).mergeSort
        (fun a b => decide (a.timestamp ≤ b.timestamp))).take limit := by
    simp [getAuditTrail, dbSelectTrail, h]
  refine ⟨?_, ?_, ?_, ?_⟩
  · intro e he
    rw [hg] at he
    have h1 := List.take_subset limit _ he
    have h2 := (List.mergeSort_perm
      (s.auditLogs.filter (trailMatches et id))
      (fun a b => decide (a.timestamp ≤ b.timestamp))).mem_iff.mp h1
    have h3 := List.mem_filter.mp h2
    refine ⟨?_, h3.1⟩
    have h4 := h3.2
    simp only [trailMatches, Bool.and_eq_true, beq_iff_eq] at h4
    exact h4
  · have htrans : ∀ a b c : AuditLogEntry,
        decide (a.timestamp ≤ b.timestamp) = true →
        decide (b.timestamp ≤ c.timestamp) = true →
        decide (a.timestamp ≤ c.timestamp) = true := by
      intro a b c hab hbc
      simp only [decide_eq_true_eq] at hab hbc ⊢
      exact le_trans hab hbc
    have htotal : ∀ a b : AuditLogEntry,
        (decide (a.timestamp ≤ b.timestamp) ||
          decide (b.timestamp ≤ a.timestamp)) = true := by
      intro a b
      simpa using Int.le_total a.timestamp b.timestamp
    have hs := List.sorted_mergeSort htrans htotal
      (s.auditLogs.filter (trailMatches et id))
    have hs2 : List.Sorted (fun a b : AuditLogEntry => a.timestamp ≤ b.timestamp)
        ((s.auditLogs.filter (trailMatches et id)).mergeSort
          (fun a b => decide (a.timestamp ≤ b.timestamp))) :=
      hs.imp (fun hab => by simpa using hab)
    rw [hg]
    exact List.Pairwise.sublist (List.take_sublist _ _) hs2
  · rw [hg, List.length_take, List.length_mergeSort]
  · simp [getAuditTrail, dbSelectTrail]

/-- C7 witness: a store with two matching rows recorded out of
timestamp order; the trail reader's guarantees hold at this store, and
with the read made to fail the result is empty. -/
theorem getAuditTrail_spec_witness :
    (∀ e ∈ getAuditTrail
        { noFaultDb with auditLogs := [sampleEntry none 5, sampleEntry none 3] }
        "appointment" "A1" 100,
        (e.entityType = "appointment" ∧ e.entityId = some "A1") ∧
          e ∈ ({ noFaultDb with auditLogs :=
            [sampleEntry none 5, sampleEntry none 3] } : DbState).auditLogs)
    ∧ List.Sorted (fun a b : AuditLogEntry => a.timestamp ≤ b.timestamp)
        (getAuditTrail
          { noFaultDb with auditLogs := [sampleEntry none 5, sampleEntry none 3] }
          "appointment" "A1" 100)
    ∧ (getAuditTrail
        { noFaultDb with auditLogs := [sampleEntry none 5, sampleEntry none 3] }
        "appointment" "A1" 100).length =
        min 100 (({ noFaultDb with auditLogs :=
          [sampleEntry none 5, sampleEntry none 3] } : DbState).auditLogs.filter
            (trailMatches "appointment" "A1")).length
    ∧ getAuditTrail
        { { noFaultDb with auditLogs := [sampleEntry none 5, sampleEntry none 3] }
          with selectTrailFails := true } "appointment" "A1" 100 = [] :=
  getAuditTrail_spec
    { noFaultDb with auditLogs := [sampleEntry none 5, sampleEntry none 3] }
    "appointment" "A1" 100 rfl

/-! ## Claim C9 — redaction of the sample record and of non-objects -/

/-- C9: on the spec's sample record, `redactPII` returns (without
raising) a new object with the same keys in which the email became
`j***@x.com`, the name became exactly `***REDACTED***` and the phone
kept its `+44770` prefix; on the non-object inputs `null` and `42` it
returns the input unchanged. The embedding is purely functional, so
non-mutation of the input record holds by construction. -/
theorem redactPII_examples :
    redactPII (.obj [("phone", .str "+447700900123"), ("email", .str "jane@x.com"),
        ("name", .str "Jane Doe")]) defaultRedactFields =
      .ok (.obj [("phone", .str "+447700***"), ("email", .str "j***@x.com"),
        ("name", .str "***REDACTED***")])
    ∧ redactPII .null defaultRedactFields = .ok .null
    ∧ redactPII (.num 42) defaultRedactFields = .ok (.num 42) :=
  ⟨rfl, rfl, rfl⟩

/-! ## Claim C10 — redaction is not exception-free on non-strings -/

/-- C10 counterexample: a truthy non-string value in a listed field
does not necessarily make `redactPII` throw — a numeric `name` field is
replaced by the literal without any error, so `redactPII` is not "only
exception-free when every listed field is absent, falsy, or a string". -/
theorem redactPII_nonstring_name_counterexample :
    redactPII (.obj [("name", .num 42)]) defaultRedactFields =
      .ok (.obj [("name", .str "***REDACTED***")]) :=
  rfl

/-- C10 (amended): only the `phone` and `email` rules invoke
`.replace` on the field value, so a truthy non-string in one of those
two fields raises a `TypeError` which propagates to the caller, while a
truthy non-string in any other listed field (such as `name`) is
replaced by `***REDACTED***` without error. -/
theorem redactPII_replace_type_error (n : Int) (h : ¬ n = 0) :
    redactPII (.obj [("phone", .num n)]) defaultRedactFields =
      .error "TypeError: redacted[field].replace is not a function"
    ∧ redactPII (.obj [("email", .num n)]) defaultRedactFields =
      .error "TypeError: redacted[field].replace is not a function"
    ∧ redactPII (.obj [("name", .num n)]) defaultRedactFields =
      .ok (.obj [("name", .str "***REDACTED***")]) := by
  have hb : (n == 0) = false := by simpa using h
  refine ⟨?_, ?_, ?_⟩ <;>
    simp [redactPII, redactLoop, redactField, truthy, setField,
      defaultRedactFields, List.lookup, hb]

/-- C10 witness: the amended claim at the concrete value 7. -/
theorem redactPII_replace_type_error_witness :
    redactPII (.obj [("phone", .num 7)]) defaultRedactFields =
      .error "TypeError: redacted[field].replace is not a function"
    ∧ redactPII (.obj [("email", .num 7)]) defaultRedactFields =
      .error "TypeError: redacted[field].replace is not a function"
    ∧ redactPII (.obj [("name", .num 7)]) defaultRedactFields =
      .ok (.obj [("name", .str "***REDACTED***")]) :=
  redactPII_replace_type_error 7 (by decide)

/-! ## Claim C6 — the phone redaction rule -/

/-- Splitting a list at a boundary where the predicate flips:
`takeWhile`/`dropWhile` recover the two parts. -/
lemma takeWhile_append_all {α : Type} (p : α → Bool) (l1 l2 : List α)
    (h1 : ∀ c ∈ l1, p c = true) (h2 : ∀ c ∈ l2.head?, p c = false) :
    (l1 ++ l2).takeWhile p = l1 ∧ (l1 ++ l2).dropWhile p = l2 := by
  induction l1 with
  | nil =>
    simp only [List.nil_append]
    cases l2 with
    | nil => simp
    | cons c cs =>
      have hc := h2 c (by simp)
      simp [List.takeWhile_cons, List.dropWhile_cons, hc]
  | cons a t ih =>
    have ha : p a = true := h1 a (by simp)
    have iht := ih (fun c hc => h1 c (by simp [hc]))
    simp [List.takeWhile_cons, List.dropWhile_cons, ha, iht.1, iht.2]

/-- When the phone regex matches nowhere, the non-global `replace`
returns the string unchanged. -/
lemma phoneReplace_of_no_match :
    ∀ l : List Char, hasPhoneMatch l = false → phoneReplace l = l := by
  intro l
  induction l with
  | nil => intro _; rfl
  | cons c cs ih =>
    intro h
    rw [hasPhoneMatch] at h
    rw [Bool.or_eq_false_iff] at h
    obtain ⟨h1, h2⟩ := h
    by_cases hc : c = '+'
    · have hlen : ¬ (5 ≤ (cs.takeWhile Char.isDigit).length) := by
        rcases Bool.and_eq_false_iff.mp h1 with hx | hx
        · exact absurd (beq_iff_eq.mpr hc) (by simp [hx])
        · simpa using hx
      simp [phoneReplace, hc, hlen, ih h2]
    · simp [phoneReplace, hc, ih h2]

/-- C6 (amended): for a phone string consisting of `+` followed by a
digit run of length `D ≥ 5` and an optional non-digit tail, `redactPII`
keeps `+`, the first `min 3 (D − 4)` digits (the greedy group 1) and
the following 3 digits, replaces the remaining digits of the match with
the literal `***`, and keeps the tail; a phone string in which the
regex matches nowhere is returned unchanged — there is no fallback to
full masking. -/
theorem redactPII_phone_rule (run rest : List Char)
    (hrun : ∀ c ∈ run, c.isDigit = true)
    (hlen : 5 ≤ run.length)
    (hrest : ∀ c ∈ rest.head?, c.isDigit = false) :
    (redactPII (.obj [("phone", .str ⟨'+' :: (run ++ rest)⟩)]) defaultRedactFields =
      .ok (.obj [("phone", .str ⟨'+' :: (run.take (min 3 (run.length - 4)) ++
        ((run.drop (min 3 (run.length - 4))).take 3 ++
          ('*' :: '*' :: '*' :: rest)))⟩)]))
    ∧ ∀ v : String, hasPhoneMatch v.data = false →
        redactPII (.obj [("phone", .str v)]) defaultRedactFields =
          .ok (.obj [("phone", .str v)]) := by
  constructor
  · have hsp := takeWhile_append_all Char.isDigit run rest hrun hrest
    have hpr : phoneReplace ('+' :: (run ++ rest)) =
        '+' :: (run.take (min 3 (run.length - 4)) ++
          ((run.drop (min 3 (run.length - 4))).take 3 ++
            ('*' :: '*' :: '*' :: rest))) := by
      simp [phoneReplace, hsp.1, hsp.2, hlen]
    have hne : ((⟨'+' :: (run ++ rest)⟩ : String) == "") = false := by
      refine beq_eq_false_iff_ne.mpr ?_
      intro hcontra
      have := congrArg String.data hcontra
      simp at this
    simp [redactPII, redactLoop, redactField, truthy, setField,
      defaultRedactFields, List.lookup, hne, hpr]
  · intro v hvm
    obtain ⟨dL⟩ := v
    by_cases hv : dL = []
    · subst hv
      simp [redactPII, redactLoop, redactField, truthy, setField,
        defaultRedactFields, List.lookup]
    · have hne2 : ((⟨dL⟩ : String) == "") = false := by
        refine beq_eq_false_iff_ne.mpr ?_
        intro hcontra
        have := congrArg String.data hcontra
        simp at this
        exact hv this
      have hpr2 : phoneReplace dL = dL := phoneReplace_of_no_match dL hvm
      simp [redactPII, redactLoop, redactField, truthy, setField,
        defaultRedactFields, List.lookup, hne2, hpr2]

/-- C6 counterexample: the phone value `0123456789` matches no
`+`-prefixed block, and `redactPII` returns it unchanged rather than
falling back to full masking. -/
theorem redactPII_phone_counterexample :
    redactPII (.obj [("phone", .str "0123456789")]) defaultRedactFields =
      .ok (.obj [("phone", .str "0123456789")])
    ∧ ("0123456789" : String) ≠ "***"
    ∧ ("0123456789" : String) ≠ "***REDACTED***" :=
  ⟨rfl, by decide, by decide⟩

/-- C6 witness: the redaction rule at the 12-digit sample number (the
kept block is `+447` plus `700`) and the unchanged-value branch at a
number with no `+`. -/
theorem redactPII_phone_rule_witness :
    redactPII (.obj [("phone", .str "+447700900123")]) defaultRedactFields =
      .ok (.obj [("phone", .str "+447700***")])
    ∧ redactPII (.obj [("phone", .str "07700")]) defaultRedactFields =
      .ok (.obj [("phone", .str "07700")]) := by
  constructor
  · exact (redactPII_phone_rule ("447700900123".data) []
      (by decide) (by decide) (by decide)).1
  · exact (redactPII_phone_rule ("447700900123".data) []
      (by decide) (by decide) (by decide)).2 "07700" (by decide)

/-! ## Claim C8 — seeding of default policies -/

/-- Number of policy rows stored for a data category. -/
def countPolicies (s : DbState) (dt : String) : Nat :=
  (s.policies.filter (fun q => q.dataType == dt)).length

/-- Characterization of the seeding loop on a fault-free store: it
appends exactly the given policies whose data type has no row yet,
keeping everything else, and raises no exception. Requires the seeded
list to have pairwise-distinct data types (as `defaultPolicies` does),
so that inserting one category does not affect the absence check of a
later one. -/
lemma seed_foldl_eq :
    ∀ (ps : List RetentionPolicy) (s : DbState),
      s.selectPolicyFails = false → s.insertPolicyFails = false →
      ps.Pairwise (fun a b => a.dataType ≠ b.dataType) →
      ps.foldl seedStep (s, false) =
        ({ s with policies := s.policies ++
            ps.filter (fun p =>
              (s.policies.filter (fun q => q.dataType == p.dataType)).isEmpty) },
         false) := by
  intro ps
  induction ps with
  | nil =>
    intro s _ _ _
    simp
  | cons p ps ih =>
    intro s h1 h2 hpw
    rw [List.pairwise_cons] at hpw
    obtain ⟨hph, hpt⟩ := hpw
    rw [List.foldl_cons]
    by_cases hemp : (s.policies.filter (fun q => q.dataType == p.dataType)).isEmpty = true
    · have hstep : seedStep (s, false) p =
          ({ s with policies := s.policies ++ [p] }, false) := by
        simp [seedStep, h1, h2, hemp]
      rw [hstep, ih { s with policies := s.policies ++ [p] } h1 h2 hpt]
      have hfEq : ∀ p2 ∈ ps,
          ((s.policies ++ [p]).filter (fun q => q.dataType == p2.dataType)).isEmpty =
          (s.policies.filter (fun q => q.dataType == p2.dataType)).isEmpty := by
        intro p2 hp2
        have hne : (p.dataType == p2.dataType) = false :=
          beq_eq_false_iff_ne.mpr (hph p2 hp2)
        rw [List.filter_append]
        simp [List.filter_cons, hne]
      have hfiltEq : ps.filter (fun p2 =>
            ((s.policies ++ [p]).filter (fun q => q.dataType == p2.dataType)).isEmpty)
          = ps.filter (fun p2 =>
            (s.policies.filter (fun q => q.dataType == p2.dataType)).isEmpty) :=
        List.filter_congr hfEq
      rw [hfiltEq]
      simp [List.filter_cons, hemp, List.append_assoc]
    · have hstep : seedStep (s, false) p = (s, false) := by
        simp [seedStep, h1, hemp]
      rw [hstep, ih s h1 h2 hpt]
      simp [List.filter_cons, hemp]

/-- C8 counterexample: starting from a store that already holds two
`call_logs` policy rows, two successive calls of
`initializeDefaultPolicies` still leave two rows for that seeded
category — not exactly one — because seeding only ever inserts into
absent categories and never deduplicates existing rows. -/
theorem initializeDefaultPolicies_dup_counterexample :
    countPolicies (initializeDefaultPolicies (initializeDefaultPolicies
      { noFaultDb with policies := [tenDayCallLogsPolicy, tenDayCallLogsPolicy] }))
      "call_logs" = 2
    ∧ (2 : Nat) ≠ 1 :=
  ⟨rfl, by decide⟩

/-- C8 (amended): on a fault-free store, `initializeDefaultPolicies`
inserts only categories absent from the policy store; a second call in
succession is a no-op, and every seeded category that had no row before
the first call has exactly one row afterwards. (Starting from a store
that already holds duplicate rows for a category, the duplicates
persist — seeding never removes rows.) -/
theorem initializeDefaultPolicies_spec (s : DbState)
    (h1 : s.selectPolicyFails = false) (h2 : s.insertPolicyFails = false) :
    initializeDefaultPolicies (initializeDefaultPolicies s) =
      initializeDefaultPolicies s
    ∧ ∀ p ∈ defaultPolicies,
        countPolicies s p.dataType = 0 →
          countPolicies (initializeDefaultPolicies s) p.dataType = 1 := by
  have hpw : defaultPolicies.Pairwise (fun a b => a.dataType ≠ b.dataType) := by
    decide
  have key := seed_foldl_eq defaultPolicies s h1 h2 hpw
  have hinit : initializeDefaultPolicies s =
      { s with policies := s.policies ++ defaultPolicies.filter (fun p =>
          (s.policies.filter (fun q => q.dataType == p.dataType)).isEmpty) } := by
    unfold initializeDefaultPolicies
    rw [key]
  constructor
  · have hs1 : (initializeDefaultPolicies s).selectPolicyFails = false := by
      rw [hinit]
      exact h1
    have hs2 : (initializeDefaultPolicies s).insertPolicyFails = false := by
      rw [hinit]
      exact h2
    have key2 := seed_foldl_eq defaultPolicies (initializeDefaultPolicies s) hs1 hs2 hpw
    have hnil : defaultPolicies.filter (fun p =>
        ((initializeDefaultPolicies s).policies.filter
          (fun q => q.dataType == p.dataType)).isEmpty) = [] := by
      rw [List.filter_eq_nil_iff]
      intro p hp
      rw [List.isEmpty_eq_true]
      by_cases hemp : (s.policies.filter (fun q => q.dataType == p.dataType)).isEmpty = true
      · have hmem : p ∈ (initializeDefaultPolicies s).policies.filter
            (fun q => q.dataType == p.dataType) := by
          rw [List.mem_filter]
          refine ⟨?_, by simp⟩
          rw [hinit]
          exact List.mem_append.mpr (Or.inr (List.mem_filter.mpr ⟨hp, hemp⟩))
        exact List.ne_nil_of_mem hmem
      · rw [Bool.not_eq_true, List.isEmpty_eq_false] at hemp
        obtain ⟨x, hx⟩ := List.exists_mem_of_ne_nil _ hemp
        have hx2 := List.mem_filter.mp hx
        have hmem : x ∈ (initializeDefaultPolicies s).policies.filter
            (fun q => q.dataType == p.dataType) := by
          rw [List.mem_filter]
          refine ⟨?_, hx2.2⟩
          rw [hinit]
          exact List.mem_append.mpr (Or.inl hx2.1)
        exact List.ne_nil_of_mem hmem
    calc initializeDefaultPolicies (initializeDefaultPolicies s)
        = (defaultPolicies.foldl seedStep (initializeDefaultPolicies s, false)).1 := rfl
      _ = initializeDefaultPolicies s := by
          rw [key2, hnil]
          simp
  · intro p hp hc
    have hFp : (s.policies.filter (fun q => q.dataType == p.dataType)).isEmpty = true := by
      rw [List.isEmpty_eq_true]
      exact List.length_eq_zero.mp hc
    have hcount : countPolicies (initializeDefaultPolicies s) p.dataType =
        countPolicies s p.dataType +
        ((defaultPolicies.filter (fun p2 =>
            (s.policies.filter (fun q => q.dataType == p2.dataType)).isEmpty)).filter
          (fun q => q.dataType == p.dataType)).length := by
      rw [countPolicies, countPolicies, hinit]
      rw [List.filter_append, List.length_append]
    rw [hcount, hc, List.filter_filter]
    fin_cases hp <;>
      simp [defaultPolicies, List.filter_cons, hFp]

/-- C8 witness: from the empty fault-free store, two successive seeding
calls coincide and each seeded category ends with exactly one row. -/
theorem initializeDefaultPolicies_spec_witness :
    initializeDefaultPolicies (initializeDefaultPolicies noFaultDb) =
      initializeDefaultPolicies noFaultDb
    ∧ ∀ p ∈ defaultPolicies,
        countPolicies noFaultDb p.dataType = 0 →
          countPolicies (initializeDefaultPolicies noFaultDb) p.dataType = 1 :=
  initializeDefaultPolicies_spec noFaultDb rfl rfl
